import Mathlib

/-!
# Verification of the TradingCrypto market-state analyzer, PnL manager and backtest engine

A shallow embedding, in Lean 4, of the algorithmic core of the `cryptotrader`
repository:

* `SymbolData.calculate_vwap` / `SymbolData.calculate_support_resistance`
  (`core/symbol_data.py`) — the live indicator functions;
* `MockSymbolData.get_ohlc_bars` / `MockSymbolData.calculate_vwap` /
  `MockSymbolData.calculate_support_resistance` (`backtester.py`) — the
  backtest indicator functions;
* `GlobalVwapWatch.analyze_market` (`market_watch/global_vwap_watch.py`) —
  the market-state computation (trend / bias / support-resistance /
  confirmation), as it is driven by the backtester over `MockSymbolData`;
* `MockTradeManager.place_order` / `MockTradeManager.check_for_close`
  (`backtester.py`) — the backtest position ledger;
* `PnLManager.check_and_close_positions` (`core/pnl_manager.py`) — the live
  money-based TP / SL / trailing-stop manager with its peak-profit tracker;
* the per-bar protocol of `Backtester.run_backtest` / `_run_trade_cycle`
  (`backtester.py`).

Conventions of the embedding:

* Python floats are modelled as `ℚ`.  A pandas/NumPy NaN (which arises
  only from a division by a zero cumulative volume; with the nonnegative
  tick volumes of real bar data the numerator is then also zero, giving
  0/0 = NaN) is modelled as `none : Option ℚ`; every ordered comparison
  against it is `false`, as in IEEE arithmetic and as in the Python code.
* A pandas DataFrame of OHLCV rows is a `List Bar`; the `tick_volume`
  column is always present in the model, so the Python
  `'tick_volume' not in df.columns` guard is always false here.
* Python dictionaries keyed by ticket are association lists with
  last-write-wins update; the market-state dictionary is the structure
  `MarketState`, with `Option` fields for the keys that the error returns
  of `analyze_market` omit.  The constant `symbol` / `timeframe` fields
  carry no information and `timeframe` is dropped.
* Close reasons are the inductive `CloseReason` instead of the formatted
  Python message strings; the constructor records which branch fired (and,
  for the trailing stop, the locked-in level that the message interpolates).
-/

/-- One OHLCV bar (one row of the backtester's DataFrame):
`open`, `high`, `low`, `close`, `tick_volume`. -/
structure Bar where
  open_ : ℚ
  high : ℚ
  low : ℚ
  close : ℚ
  tick_volume : ℚ
deriving DecidableEq, Repr

/-- `(high + low + close) / 3`, the `TypicalPrice` column. -/
def typicalPrice (b : Bar) : ℚ := (b.high + b.low + b.close) / 3

/-- Running `(CumTPV, CumVolume)` pairs: the cumulative sums of
`TypicalPrice * tick_volume` and of `tick_volume`, one pair per row,
starting from the accumulator `(ctpv, cvol)`. -/
def cumListAux (ctpv cvol : ℚ) : List Bar → List (ℚ × ℚ)
  | [] => []
  | b :: rest =>
    let ctpv2 := ctpv + typicalPrice b * b.tick_volume
    let cvol2 := cvol + b.tick_volume
    (ctpv2, cvol2) :: cumListAux ctpv2 cvol2 rest

/-- The `(CumTPV, CumVolume)` columns of the VWAP computation. -/
def cumList (df : List Bar) : List (ℚ × ℚ) := cumListAux 0 0 df

/-- `df['tick_volume'].sum()`. -/
def totalVolume (df : List Bar) : ℚ := df.foldl (fun a b => a + b.tick_volume) 0

/-- Last `n` rows of the DataFrame, `df.tail(n)`. -/
def tailN (n : ℕ) (df : List Bar) : List Bar := df.drop (df.length - n)

/-- `df['low'].min()` (0 on an empty frame; every use is guarded nonempty). -/
def minLow : List Bar → ℚ
  | [] => 0
  | b :: rest => rest.foldl (fun m x => min m x.low) b.low

/-- `df['high'].max()` (0 on an empty frame; every use is guarded nonempty). -/
def maxHigh : List Bar → ℚ
  | [] => 0
  | b :: rest => rest.foldl (fun m x => max m x.high) b.high

example : cumList [⟨100,100,100,100,1⟩, ⟨104,104,104,104,1⟩] = [(100, 1), (204, 2)] := by
  norm_num [cumList, cumListAux, typicalPrice]

namespace SymbolData

/-- `SymbolData.calculate_vwap` (`core/symbol_data.py`): returns `None`
only when the volume column is missing (never, in this model) or the frame
is empty; otherwise the full `CumTPV / CumVolume` series.  There is no
zero-volume guard: a zero cumulative volume at an index produces a
non-numeric entry (0/0 = NaN in pandas), modelled as `none`. -/
def calculate_vwap (df : List Bar) : Option (List (Option ℚ)) :=
  if df.length = 0 then none
  else some ((cumList df).map (fun c => if c.2 = 0 then none else some (c.1 / c.2)))

/-- `SymbolData.calculate_support_resistance` (`core/symbol_data.py`):
`{0, 0}` when the frame has fewer than 5 rows, otherwise min low / max high
over `df.tail(20)`. -/
def calculate_support_resistance (df : List Bar) : ℚ × ℚ :=
  if df.length < 5 then (0, 0)
  else (minLow (tailN 20 df), maxHigh (tailN 20 df))

end SymbolData

namespace MockSymbolData

/-- `MockSymbolData.get_ohlc_bars` (`backtester.py`): the slice
`data.iloc[max(0, current_idx - count + 1) : current_idx + 1]`, empty when
`current_idx < 0`.  The required OHLCV columns are always present in the
model, so the column check always passes. -/
def get_ohlc_bars (data : List Bar) (current_idx : Int) (count : ℕ) : List Bar :=
  if current_idx < 0 then []
  else
    let end_idx := current_idx.toNat + 1
    (data.take end_idx).drop (end_idx - count)

/-- `MockSymbolData.calculate_vwap` (`backtester.py`): `None` when the frame
is empty or the summed tick volume is zero; otherwise the
`CumTPV / CumVolume.replace(0, nan)` series, a zero cumulative volume
giving a NaN entry (`none`). -/
def calculate_vwap (df : List Bar) : Option (List (Option ℚ)) :=
  if df.length = 0 ∨ totalVolume df = 0 then none
  else some ((cumList df).map (fun c => if c.2 = 0 then none else some (c.1 / c.2)))

/-- `MockSymbolData.calculate_support_resistance` (`backtester.py`):
lookback 50; a frame shorter than 50 rows uses the whole frame (0 when
empty), otherwise min low / max high over `df.tail(50)`. -/
def calculate_support_resistance (df : List Bar) : ℚ × ℚ :=
  if df.length < 50 then
    (if df.isEmpty then 0 else minLow df, if df.isEmpty then 0 else maxHigh df)
  else (minLow (tailN 50 df), maxHigh (tailN 50 df))

end MockSymbolData

/-- NaN-propagating subtraction of two possibly-NaN values. -/
def osub : Option ℚ → Option ℚ → Option ℚ
  | some a, some b => some (a - b)
  | _, _ => none

/-- `x > 0` on a possibly-NaN value (`NaN > 0` is false). -/
def oposb : Option ℚ → Bool
  | some a => decide (0 < a)
  | none => false

/-- `x < 0` on a possibly-NaN value (`NaN < 0` is false). -/
def onegb : Option ℚ → Bool
  | some a => decide (a < 0)
  | none => false

/-- `x > y` for numeric `x` against possibly-NaN `y` (false on NaN). -/
def gtOpt (x : ℚ) : Option ℚ → Bool
  | some b => decide (b < x)
  | none => false

/-- `x < y` for numeric `x` against possibly-NaN `y` (false on NaN). -/
def ltOpt (x : ℚ) : Option ℚ → Bool
  | some b => decide (x < b)
  | none => false

/-- The market-state dictionary returned by
`GlobalVwapWatch.analyze_market`.  The two error returns carry only
`trend`, `confirmation`, `vwap` and `current_price`; the keys they omit
are `none` here. -/
structure MarketState where
  symbol : String
  current_price : Option ℚ
  vwap : Option ℚ
  trend : String
  bias : Option String
  support : Option ℚ
  resistance : Option ℚ
  confirmation : String
deriving DecidableEq, Repr

/-- `df['close'].iloc[-1]` (only evaluated on nonempty frames). -/
def lastClose (df : List Bar) : ℚ := (df.getLastD ⟨0, 0, 0, 0, 0⟩).close

/-- `GlobalVwapWatch.analyze_market` (`market_watch/global_vwap_watch.py`)
applied to an already-fetched bar window, with the indicator methods of
`MockSymbolData` as in the backtester's composition.  Steps, as in the
source: empty-frame error return; VWAP series (error return when
unavailable); trend from the VWAP slope `vwap_array[-1] - vwap_array[-10]`
when more than 10 VWAP points exist; bias from price against
`vwap_array[-1]`; support/resistance; confirmation from trend and bias. -/
def analyze_market (symbol : String) (df : List Bar) : MarketState :=
  if df.isEmpty then
    { symbol := "", current_price := none, vwap := none, trend := "ERROR",
      bias := none, support := none, resistance := none, confirmation := "NEUTRAL" }
  else
    match MockSymbolData.calculate_vwap df with
    | none =>
      { symbol := "", current_price := some (lastClose df), vwap := none, trend := "ERROR",
        bias := none, support := none, resistance := none, confirmation := "NEUTRAL" }
    | some vwap_array =>
      if vwap_array.isEmpty then
        { symbol := "", current_price := some (lastClose df), vwap := none, trend := "ERROR",
          bias := none, support := none, resistance := none, confirmation := "NEUTRAL" }
      else
        let current_price := lastClose df
        let n := vwap_array.length
        let current_vwap : Option ℚ := vwap_array.getD (n - 1) none
        let trend : String :=
          if 10 < n then
            let vwap_change := osub (vwap_array.getD (n - 1) none) (vwap_array.getD (n - 10) none)
            if oposb vwap_change then "UPTREND"
            else if onegb vwap_change then "DOWNTREND"
            else "CONSOLIDATION"
          else "CONSOLIDATION"
        let bias : String :=
          if gtOpt current_price current_vwap then "BULLISH"
          else if ltOpt current_price current_vwap then "BEARISH"
          else "NEUTRAL"
        let sr := MockSymbolData.calculate_support_resistance df
        let confirmation : String :=
          if trend = "UPTREND" ∧ bias = "BULLISH" then "STRONG_BUY"
          else if trend = "DOWNTREND" ∧ bias = "BEARISH" then "STRONG_SELL"
          else if trend = "CONSOLIDATION" ∧ (current_price < sr.1 ∨ sr.2 < current_price) then "NEUTRAL"
          else if bias ≠ "NEUTRAL" then (if bias = "BULLISH" then "WEAK_BUY" else "WEAK_SELL")
          else "NEUTRAL"
        { symbol := symbol, current_price := some current_price, vwap := current_vwap,
          trend := trend, bias := some bias, support := some sr.1, resistance := some sr.2,
          confirmation := confirmation }

/-- The market state computed at step `i` of `Backtester.run_backtest`:
`run_backtest` sets `symbol_data.current_idx = i - 1` and
`_run_trade_cycle` then calls `market_watch.analyze_market`, which fetches
`get_ohlc_bars` at that cursor before the cursor is advanced for the
strategies. -/
def marketStateAtStep (data : List Bar) (i : ℕ) (count : ℕ) (symbol : String) : MarketState :=
  analyze_market symbol (MockSymbolData.get_ohlc_bars data ((i : Int) - 1) count)

/-! ## The backtest trade manager (`MockTradeManager`, `backtester.py`) -/

/-- An open position of the backtest ledger: the dictionary appended by
`MockTradeManager.place_order` (`type` is 1 for buy, 0 for sell; the entry
time field carries no closing logic and is dropped). -/
structure Position where
  symbol : String
  type : ℕ
  volume : ℚ
  comment : String
  magic : Int
  entry_price : ℚ
deriving DecidableEq, Repr

/-- The state of `MockTradeManager`: its TP/SL price distances, the open
position list, and the closed-trade counter (the textual trade log is pure
output and is not modelled). -/
structure MockTradeManager where
  tp_price_diff : ℚ
  sl_price_diff : ℚ
  open_positions : List Position
  closed_trades_count : ℕ
deriving DecidableEq, Repr

/-- `MockTradeManager(tp_points, sl_points)`: empty ledger. -/
def MockTradeManager.mk0 (tp sl : ℚ) : MockTradeManager :=
  { tp_price_diff := tp, sl_price_diff := sl, open_positions := [], closed_trades_count := 0 }

/-- `MockTradeManager.place_order` (`backtester.py`): a no-op when any open
position carries the same magic (the symbol is not consulted), or when the
global `current_bar` is `None`; otherwise appends a position entered at the
current bar's close. -/
def MockTradeManager.place_order (tm : MockTradeManager) (symbol : String) (side : String)
    (volume : ℚ) (comment : String) (magic : Int) (current_bar : Option Bar) : MockTradeManager :=
  if tm.open_positions.any (fun p => p.magic = magic) then tm
  else
    match current_bar with
    | none => tm
    | some b =>
      { tm with open_positions := tm.open_positions ++
          [{ symbol := symbol, type := if side = "buy" then 1 else 0, volume := volume,
             comment := comment, magic := magic, entry_price := b.close }] }

/-- The per-position close test of `MockTradeManager.check_for_close`: the
signed price distance reaches the TP distance or breaches the SL distance. -/
def MockTradeManager.hitsClose (tp sl current_price : ℚ) (p : Position) : Bool :=
  let pnl := if p.type = 1 then current_price - p.entry_price else p.entry_price - current_price
  decide (tp ≤ pnl) || decide (pnl ≤ sl)

/-- `MockTradeManager.check_for_close` (`backtester.py`): every open
position on the given symbol whose price distance hits TP or SL is removed
and counted; other symbols' positions are untouched. -/
def MockTradeManager.check_for_close (tm : MockTradeManager) (current_price : ℚ)
    (symbol : String) : MockTradeManager :=
  let closes := tm.open_positions.filter
    (fun p => p.symbol = symbol ∧ MockTradeManager.hitsClose tm.tp_price_diff tm.sl_price_diff current_price p)
  { tm with
    open_positions := tm.open_positions.filter
      (fun p => ¬(p.symbol = symbol ∧ MockTradeManager.hitsClose tm.tp_price_diff tm.sl_price_diff current_price p)),
    closed_trades_count := tm.closed_trades_count + closes.length }

/-- One call against the backtest ledger: an entry attempt
(`place_order`, with the ambient `current_bar`) or a close sweep
(`check_for_close`). -/
inductive LedgerOp where
  | place (symbol side : String) (volume : ℚ) (comment : String) (magic : Int) (bar : Option Bar)
  | close (current_price : ℚ) (symbol : String)
deriving DecidableEq, Repr

/-- Apply one ledger call. -/
def applyLedgerOp (tm : MockTradeManager) : LedgerOp → MockTradeManager
  | LedgerOp.place symbol side volume comment magic bar =>
    tm.place_order symbol side volume comment magic bar
  | LedgerOp.close price symbol => tm.check_for_close price symbol

/-- Run a call sequence from a fresh ledger. -/
def runLedgerOps (tp sl : ℚ) (ops : List LedgerOp) : MockTradeManager :=
  ops.foldl applyLedgerOp (MockTradeManager.mk0 tp sl)

/-! ## The live PnL manager (`PnLManager`, `core/pnl_manager.py`) -/

/-- The slice of an MT5 position that `check_and_close_positions` reads:
its `ticket` and its current floating `profit`. -/
structure PnlPosition where
  ticket : ℕ
  profit : ℚ
deriving DecidableEq, Repr

/-- The money-based thresholds read from `config/settings.py` into the
manager (`TAKE_PROFIT`, `STOP_LOSS`, `TRAILING_ACTIVATION`,
`TRAILING_STEP`, `BREAKEVEN_TH`). -/
structure PnLConfig where
  TAKE_PROFIT : ℚ
  STOP_LOSS : ℚ
  TRAILING_ACTIVATION : ℚ
  TRAILING_STEP : ℚ
  BREAKEVEN_TH : ℚ
deriving DecidableEq, Repr

/-- The shipped values of `config/settings.py`: `TAKE_PROFIT_USD = 1.0`,
`STOP_LOSS_USD = -10.0`, `TRAILING_ACTIVATION_USD = 1.0`,
`TRAILING_STEP_USD = 0.20`, `BREAKEVEN_THRESHOLD = 0.5`. -/
def shippedConfig : PnLConfig :=
  { TAKE_PROFIT := 1, STOP_LOSS := -10, TRAILING_ACTIVATION := 1,
    TRAILING_STEP := 1/5, BREAKEVEN_TH := 1/2 }

/-- Which close branch of `check_and_close_positions` fired (standing in
for the formatted reason strings; the trailing constructor records the
locked-in `trailing_level` that the message interpolates). -/
inductive CloseReason where
  | takeProfitMoney
  | stopLossMoney
  | trailingStop (trailing_level : ℚ)
deriving DecidableEq, Repr

/-- `self.peak_profits.get(ticket, ...)` on the dictionary, as an
association list. -/
def alookup (t : ℕ) : List (ℕ × ℚ) → Option ℚ
  | [] => none
  | kv :: rest => if kv.1 = t then some kv.2 else alookup t rest

/-- `self.peak_profits[ticket] = v` on the dictionary: overwrite in place,
or append a fresh key. -/
def ainsert (t : ℕ) (v : ℚ) (m : List (ℕ × ℚ)) : List (ℕ × ℚ) :=
  if m.any (fun kv => kv.1 = t) then m.map (fun kv => if kv.1 = t then (t, v) else kv)
  else m ++ [(t, v)]

/-- The peak update of the loop body:
`max(self.peak_profits.get(ticket, -float('inf')), current_profit)`,
which is just `current_profit` on first observation. -/
def updated_peak (peaks : List (ℕ × ℚ)) (p : PnlPosition) : ℚ :=
  match alookup p.ticket peaks with
  | some pk => max pk p.profit
  | none => p.profit

/-- The body of the main processing loop of `check_and_close_positions`
for one position: update the peak, then in order: hard take-profit, hard
stop-loss, trailing stop (guarded by
`current_profit >= TRAILING_ACTIVATION`), and the intentionally inert
break-even branch.  Returns the updated tracker and the close issued, if
any. -/
def process_position (cfg : PnLConfig) (peaks : List (ℕ × ℚ)) (p : PnlPosition) :
    List (ℕ × ℚ) × Option (ℕ × CloseReason) :=
  let current_peak := updated_peak peaks p
  let peaks1 := ainsert p.ticket current_peak peaks
  if cfg.TAKE_PROFIT ≤ p.profit then (peaks1, some (p.ticket, CloseReason.takeProfitMoney))
  else if p.profit ≤ cfg.STOP_LOSS then (peaks1, some (p.ticket, CloseReason.stopLossMoney))
  else if cfg.TRAILING_ACTIVATION ≤ p.profit then
    (if p.profit ≤ current_peak - cfg.TRAILING_STEP then
      (peaks1, some (p.ticket, CloseReason.trailingStop (current_peak - cfg.TRAILING_STEP)))
    else (peaks1, none))
  else (peaks1, none)

/-- The main processing loop of `check_and_close_positions`: thread the
tracker through `process_position` over the positions in order,
collecting the issued closes in order. -/
def process_loop (cfg : PnLConfig) : List (ℕ × ℚ) → List PnlPosition →
    List (ℕ × ℚ) × List (ℕ × CloseReason)
  | peaks, [] => (peaks, [])
  | peaks, p :: rest =>
    let r := process_position cfg peaks p
    let tail := process_loop cfg r.1 rest
    (tail.1, r.2.toList ++ tail.2)

/-- `PnLManager.check_and_close_positions` (`core/pnl_manager.py`) on the
tracker state: a `None` positions tuple clears the tracker and returns at
once with no closes; otherwise stale tickets (not open any more) are
dropped from the tracker and each position is processed in order by
`process_position`.  Returns the new tracker and the list of issued
closes. -/
def check_and_close_positions (cfg : PnLConfig) (peaks : List (ℕ × ℚ))
    (positions : Option (List PnlPosition)) : List (ℕ × ℚ) × List (ℕ × CloseReason) :=
  match positions with
  | none => ([], [])
  | some ps =>
    process_loop cfg (peaks.filter (fun kv => ps.any (fun p => p.ticket = kv.1))) ps

/-! ## Dictionary and loop lemmas for the PnL manager -/

lemma alookup_map_overwrite (t : ℕ) (v : ℚ) (m : List (ℕ × ℚ))
    (h : m.any (fun kv => kv.1 = t) = true) :
    alookup t (m.map (fun kv => if kv.1 = t then (t, v) else kv)) = some v := by
  induction m with
  | nil => simp at h
  | cons kv rest ih =>
    by_cases hk : kv.1 = t
    · simp [alookup, hk]
    · simp only [List.any_cons, Bool.or_eq_true, decide_eq_true_eq] at h
      rcases h with h | h
      · exact absurd h hk
      · simp only [List.map_cons, if_neg hk]
        simpa [alookup, hk] using ih h

lemma alookup_append_missing (t : ℕ) (v : ℚ) (m : List (ℕ × ℚ))
    (h : m.any (fun kv => kv.1 = t) = false) :
    alookup t (m ++ [(t, v)]) = some v := by
  induction m with
  | nil => simp [alookup]
  | cons kv rest ih =>
    simp only [List.any_cons, Bool.or_eq_false_iff, decide_eq_false_iff_not] at h
    simpa [alookup, h.1] using ih (by simpa using h.2)

lemma alookup_ainsert_self (t : ℕ) (v : ℚ) (m : List (ℕ × ℚ)) :
    alookup t (ainsert t v m) = some v := by
  unfold ainsert
  by_cases h : m.any (fun kv => kv.1 = t) = true
  · simpa [h] using alookup_map_overwrite t v m h
  · simp only [Bool.not_eq_true] at h
    simpa [h] using alookup_append_missing t v m h


lemma alookup_map_other (s t : ℕ) (hst : s ≠ t) (v : ℚ) (m : List (ℕ × ℚ)) :
    alookup t (m.map (fun kv => if kv.1 = s then (s, v) else kv)) = alookup t m := by
  induction m with
  | nil => rfl
  | cons kv rest ih =>
    by_cases hk : kv.1 = s
    · simp [alookup, hk, hst, Ne.symm hst, ih]
    · by_cases hkt : kv.1 = t
      · simp [alookup, hk, hkt, hst, Ne.symm hst]
      · simp [alookup, hk, hkt, hst, Ne.symm hst, ih]

lemma alookup_append_one (t : ℕ) (kv2 : ℕ × ℚ) (hk : kv2.1 ≠ t) (m : List (ℕ × ℚ)) :
    alookup t (m ++ [kv2]) = alookup t m := by
  induction m with
  | nil => simp [alookup, hk]
  | cons kv rest ih =>
    by_cases hkt : kv.1 = t
    · simp [alookup, hkt]
    · simp [alookup, hkt, ih]

lemma alookup_ainsert_other (s t : ℕ) (hst : s ≠ t) (v : ℚ) (m : List (ℕ × ℚ)) :
    alookup t (ainsert s v m) = alookup t m := by
  unfold ainsert
  by_cases h : m.any (fun kv => kv.1 = s) = true
  · simpa [h] using alookup_map_other s t hst v m
  · simp only [Bool.not_eq_true] at h
    simpa [h] using alookup_append_one t (s, v) hst m

lemma alookup_filter (t : ℕ) (m : List (ℕ × ℚ)) (pred : ℕ × ℚ → Bool)
    (h : ∀ v : ℚ, pred (t, v) = true) :
    alookup t (m.filter pred) = alookup t m := by
  induction m with
  | nil => rfl
  | cons kv rest ih =>
    by_cases hk : kv.1 = t
    · have hkv : pred kv = true := by
        have hse : kv = (t, kv.2) := by rw [← hk]
        rw [hse]; exact h kv.2
      simp [List.filter_cons, hkv, alookup, hk]
    · by_cases hp : pred kv = true
      · simp [List.filter_cons, hp, alookup, hk, ih]
      · simp only [Bool.not_eq_true] at hp
        simp [List.filter_cons, hp, alookup, hk, ih]

lemma process_position_fst (cfg : PnLConfig) (peaks : List (ℕ × ℚ)) (p : PnlPosition) :
    (process_position cfg peaks p).1 = ainsert p.ticket (updated_peak peaks p) peaks := by
  by_cases h1 : cfg.TAKE_PROFIT ≤ p.profit <;>
    by_cases h2 : p.profit ≤ cfg.STOP_LOSS <;>
      by_cases h3 : cfg.TRAILING_ACTIVATION ≤ p.profit <;>
        by_cases h4 : p.profit ≤ updated_peak peaks p - cfg.TRAILING_STEP <;>
          simp [process_position, h1, h2, h3, h4]

lemma process_position_snd (cfg : PnLConfig) (peaks : List (ℕ × ℚ)) (p : PnlPosition) :
    (process_position cfg peaks p).2 =
      if cfg.TAKE_PROFIT ≤ p.profit then some (p.ticket, CloseReason.takeProfitMoney)
      else if p.profit ≤ cfg.STOP_LOSS then some (p.ticket, CloseReason.stopLossMoney)
      else if cfg.TRAILING_ACTIVATION ≤ p.profit ∧
          p.profit ≤ updated_peak peaks p - cfg.TRAILING_STEP then
        some (p.ticket, CloseReason.trailingStop (updated_peak peaks p - cfg.TRAILING_STEP))
      else none := by
  by_cases h1 : cfg.TAKE_PROFIT ≤ p.profit <;>
    by_cases h2 : p.profit ≤ cfg.STOP_LOSS <;>
      by_cases h3 : cfg.TRAILING_ACTIVATION ≤ p.profit <;>
        by_cases h4 : p.profit ≤ updated_peak peaks p - cfg.TRAILING_STEP <;>
          simp [process_position, h1, h2, h3, h4]

lemma profit_le_updated_peak (peaks : List (ℕ × ℚ)) (p : PnlPosition) :
    p.profit ≤ updated_peak peaks p := by
  unfold updated_peak
  cases alookup p.ticket peaks <;> simp

lemma updated_peak_mono (peaks : List (ℕ × ℚ)) (p : PnlPosition) (pk : ℚ)
    (h : alookup p.ticket peaks = some pk) : pk ≤ updated_peak peaks p := by
  unfold updated_peak
  rw [h]
  exact le_max_left _ _

lemma process_loop_closes_from_body (cfg : PnLConfig) :
    ∀ (ps : List PnlPosition) (peaks : List (ℕ × ℚ)) (x : ℕ × CloseReason),
      x ∈ (process_loop cfg peaks ps).2 →
      ∃ pk p, p ∈ ps ∧ (process_position cfg pk p).2 = some x := by
  intro ps
  induction ps with
  | nil => intro peaks x hx; simp [process_loop] at hx
  | cons p rest ih =>
    intro peaks x hx
    simp only [process_loop, List.mem_append] at hx
    rcases hx with hx | hx
    · refine ⟨peaks, p, List.mem_cons_self _ _, ?_⟩
      cases hr : (process_position cfg peaks p).2 with
      | none => rw [hr] at hx; simp at hx
      | some y => rw [hr] at hx; simp at hx; rw [hx]
    · obtain ⟨pk, q, hq, hr⟩ := ih _ x hx
      exact ⟨pk, q, List.mem_cons_of_mem _ hq, hr⟩

lemma process_loop_lookup_mono (cfg : PnLConfig) :
    ∀ (ps : List PnlPosition) (peaks : List (ℕ × ℚ)) (t : ℕ) (pk : ℚ),
      alookup t peaks = some pk →
      ∃ pk2, alookup t (process_loop cfg peaks ps).1 = some pk2 ∧ pk ≤ pk2 := by
  intro ps
  induction ps with
  | nil => intro peaks t pk h; exact ⟨pk, h, le_refl pk⟩
  | cons p rest ih =>
    intro peaks t pk h
    simp only [process_loop]
    by_cases hpt : p.ticket = t
    · have hup : pk ≤ updated_peak peaks p := by
        apply updated_peak_mono
        rw [hpt]; exact h
      have hlook : alookup t (process_position cfg peaks p).1 = some (updated_peak peaks p) := by
        rw [process_position_fst, ← hpt]
        exact alookup_ainsert_self _ _ _
      obtain ⟨pk2, h2, hle2⟩ := ih _ t (updated_peak peaks p) hlook
      exact ⟨pk2, h2, le_trans hup hle2⟩
    · have hlook : alookup t (process_position cfg peaks p).1 = alookup t peaks := by
        rw [process_position_fst]
        exact alookup_ainsert_other _ _ hpt _ _
      obtain ⟨pk2, h2, hle2⟩ := ih _ t pk (by rw [hlook]; exact h)
      exact ⟨pk2, h2, hle2⟩

/-! ## Claim theorems: PnL manager -/

/-- C10: when `check_and_close_positions` is called with `positions = None`
(a failed positions fetch), it clears the entire peak-profit tracker and
returns without issuing any close; consequently a position still open on
the next call is re-tracked starting from its then-current profit. -/
theorem none_positions_clears_tracker (cfg : PnLConfig) (peaks : List (ℕ × ℚ))
    (p : PnlPosition) :
    check_and_close_positions cfg peaks none = ([], []) ∧
    alookup p.ticket
      (check_and_close_positions cfg (check_and_close_positions cfg peaks none).1
        (some [p])).1 = some p.profit := by
  refine ⟨rfl, ?_⟩
  show alookup p.ticket (check_and_close_positions cfg [] (some [p])).1 = some p.profit
  have h1 : (check_and_close_positions cfg [] (some [p])).1 =
      ainsert p.ticket (updated_peak [] p) [] := by
    simp [check_and_close_positions, process_loop, process_position_fst]
  rw [h1, alookup_ainsert_self]
  simp [updated_peak, alookup]

/-- C8: whenever `TAKE_PROFIT <= TRAILING_ACTIVATION` (as in the shipped
settings, where both are 1.0), the trailing-stop branch of
`check_and_close_positions` is unreachable — no issued close carries a
trailing-stop reason, and any position whose profit reaches the
trailing-activation level is closed by the hard take-profit rule. -/
theorem trailing_branch_unreachable (cfg : PnLConfig)
    (h : cfg.TAKE_PROFIT ≤ cfg.TRAILING_ACTIVATION)
    (peaks : List (ℕ × ℚ)) (positions : Option (List PnlPosition)) :
    (∀ t lvl, (t, CloseReason.trailingStop lvl) ∉
        (check_and_close_positions cfg peaks positions).2) ∧
    (∀ pk (p : PnlPosition), cfg.TRAILING_ACTIVATION ≤ p.profit →
      (process_position cfg pk p).2 = some (p.ticket, CloseReason.takeProfitMoney)) := by
  have key : ∀ (pk : List (ℕ × ℚ)) (p : PnlPosition) (t : ℕ) (lvl : ℚ),
      (process_position cfg pk p).2 ≠ some (t, CloseReason.trailingStop lvl) := by
    intro pk p t lvl
    rw [process_position_snd]
    by_cases h1 : cfg.TAKE_PROFIT ≤ p.profit
    · simp [h1]
    · by_cases h2 : p.profit ≤ cfg.STOP_LOSS
      · simp [h1, h2]
      · have h3 : ¬ (cfg.TRAILING_ACTIVATION ≤ p.profit ∧
            p.profit ≤ updated_peak pk p - cfg.TRAILING_STEP) :=
          fun hc => h1 (le_trans h hc.1)
        simp [h1, h2, h3]
  constructor
  · intro t lvl hx
    cases positions with
    | none => simp [check_and_close_positions] at hx
    | some ps =>
      simp only [check_and_close_positions] at hx
      obtain ⟨pk, p, _, hp⟩ := process_loop_closes_from_body cfg ps _ _ hx
      exact key pk p t lvl hp
  · intro pk p hp
    rw [process_position_snd]
    simp [le_trans h hp]

/-- C8 witness: at the shipped configuration (`TAKE_PROFIT_USD = 1.0 =
TRAILING_ACTIVATION_USD`) no trailing-stop close is issued, and a position
at profit 3/2 is closed by the hard take-profit rule. -/
theorem trailing_branch_unreachable_witness :
    (∀ t lvl, (t, CloseReason.trailingStop lvl) ∉
        (check_and_close_positions shippedConfig [] (some [⟨1, 3/2⟩])).2) ∧
    (process_position shippedConfig [] ⟨1, 3/2⟩).2 = some (1, CloseReason.takeProfitMoney) := by
  have h := trailing_branch_unreachable shippedConfig (by norm_num [shippedConfig]) []
    (some [⟨1, 3/2⟩])
  exact ⟨h.1, h.2 [] ⟨1, 3/2⟩ (by norm_num [shippedConfig])⟩

/-- C5: the peak-profit tracker is monotonically non-decreasing across a
`check_and_close_positions` call for every position open in that call, and
immediately after the per-position update the tracked peak is at least the
position's current profit. -/
theorem peak_tracker_monotone (cfg : PnLConfig) (peaks : List (ℕ × ℚ))
    (ps : List PnlPosition) (t : ℕ) (pk : ℚ)
    (ht : t ∈ ps.map PnlPosition.ticket) (hpk : alookup t peaks = some pk) :
    (∃ pk2, alookup t (check_and_close_positions cfg peaks (some ps)).1 = some pk2 ∧
      pk ≤ pk2) ∧
    (∀ (pk0 : List (ℕ × ℚ)) (p : PnlPosition),
      ∃ v, alookup p.ticket (process_position cfg pk0 p).1 = some v ∧ p.profit ≤ v) := by
  constructor
  · have hfil : alookup t (peaks.filter (fun kv => ps.any (fun p => p.ticket = kv.1))) =
        alookup t peaks := by
      apply alookup_filter
      intro v
      obtain ⟨p, hp, hpt⟩ := List.mem_map.mp ht
      exact List.any_eq_true.mpr ⟨p, hp, by simp [hpt]⟩
    simp only [check_and_close_positions]
    exact process_loop_lookup_mono cfg ps _ t pk (by rw [hfil]; exact hpk)
  · intro pk0 p
    refine ⟨updated_peak pk0 p, ?_, profit_le_updated_peak pk0 p⟩
    rw [process_position_fst]
    exact alookup_ainsert_self _ _ _

/-- C5 witness: a position with ticket 1 tracked at peak 2 and currently
at profit 1 keeps a tracked peak of at least 2 across a call, and a fresh
update always records at least the current profit. -/
theorem peak_tracker_monotone_witness :
    (∃ pk2, alookup 1 (check_and_close_positions shippedConfig [(1, 2)]
        (some [⟨1, 1⟩])).1 = some pk2 ∧ (2 : ℚ) ≤ pk2) ∧
    (∀ (pk0 : List (ℕ × ℚ)) (p : PnlPosition),
      ∃ v, alookup p.ticket (process_position shippedConfig pk0 p).1 = some v ∧
        p.profit ≤ v) :=
  peak_tracker_monotone shippedConfig [(1, 2)] [⟨1, 1⟩] 1 2 (by simp)
    (by simp [alookup])

/-- A configuration separating the hard take-profit (2) from the trailing
activation (1), with trailing step 0.2: the regime the trailing-stop spec
sentence describes. -/
def c2cfg : PnLConfig :=
  { TAKE_PROFIT := 2, STOP_LOSS := -10, TRAILING_ACTIVATION := 1,
    TRAILING_STEP := 1/5, BREAKEVEN_TH := 1/2 }

/-- C2 counterexample: a position whose profit once reached 3/2 (so its
tracked peak 3/2 has reached the activation 1) and now stands at 9/10,
which is below `peak - step = 13/10` and closed by neither hard rule — the
claim demands a trailing-stop close, but `check_and_close_positions`
issues no close at all, because the code gates the trailing branch on the
*current* profit reaching the activation. -/
theorem trailing_iff_counterexample :
    (check_and_close_positions c2cfg [] (some [⟨1, 3/2⟩])).1 = [(1, 3/2)] ∧
    (check_and_close_positions c2cfg [] (some [⟨1, 3/2⟩])).2 = [] ∧
    c2cfg.TRAILING_ACTIVATION ≤ 3/2 ∧
    (9/10 : ℚ) ≤ 3/2 - c2cfg.TRAILING_STEP ∧
    ¬ c2cfg.TAKE_PROFIT ≤ (9/10 : ℚ) ∧ ¬ (9/10 : ℚ) ≤ c2cfg.STOP_LOSS ∧
    (check_and_close_positions c2cfg [(1, 3/2)] (some [⟨1, 9/10⟩])).2 = [] := by
  norm_num [check_and_close_positions, process_loop, process_position, updated_peak,
    alookup, ainsert, c2cfg, max_def]

/-- C2 amended: for a position not closed by the hard take-profit or
stop-loss rules, `check_and_close_positions` issues a trailing-stop close
if and only if the position's *current* profit has reached
`TRAILING_ACTIVATION` and is at most `peak - TRAILING_STEP`; in
particular a trailing-stop close never occurs before the current profit —
and hence also the peak — has reached the activation level.  (The claim's
"peak has ever reached activation" gate is not what the code tests.) -/
theorem trailing_stop_rule (cfg : PnLConfig) (peaks : List (ℕ × ℚ)) (p : PnlPosition)
    (h1 : ¬ cfg.TAKE_PROFIT ≤ p.profit) (h2 : ¬ p.profit ≤ cfg.STOP_LOSS) :
    ((process_position cfg peaks p).2 =
        some (p.ticket, CloseReason.trailingStop (updated_peak peaks p - cfg.TRAILING_STEP)) ↔
      (cfg.TRAILING_ACTIVATION ≤ p.profit ∧
        p.profit ≤ updated_peak peaks p - cfg.TRAILING_STEP)) ∧
    (∀ t lvl, (process_position cfg peaks p).2 = some (t, CloseReason.trailingStop lvl) →
      cfg.TRAILING_ACTIVATION ≤ p.profit ∧
        cfg.TRAILING_ACTIVATION ≤ updated_peak peaks p) := by
  rw [process_position_snd]
  by_cases h3 : cfg.TRAILING_ACTIVATION ≤ p.profit ∧
      p.profit ≤ updated_peak peaks p - cfg.TRAILING_STEP
  · constructor
    · simp [h1, h2, h3]
    · intro t lvl _
      exact ⟨h3.1, le_trans h3.1 (profit_le_updated_peak peaks p)⟩
  · constructor
    · simp [h1, h2, h3]
    · intro t lvl hx
      simp [h1, h2, h3] at hx

/-- C2 witness: with peak 3/2 already tracked and current profit 13/10
(activation reached, profit at the trailing level), the trailing-stop
close is issued. -/
theorem trailing_stop_rule_witness :
    (process_position c2cfg [(1, 3/2)] ⟨1, 13/10⟩).2 =
      some (1, CloseReason.trailingStop (3/2 - c2cfg.TRAILING_STEP)) := by
  have hup : updated_peak [(1, 3/2)] ⟨1, 13/10⟩ = 3/2 := by
    norm_num [updated_peak, alookup, max_def]
  have h := (trailing_stop_rule c2cfg [(1, 3/2)] ⟨1, 13/10⟩
    (by norm_num [c2cfg]) (by norm_num [c2cfg])).1
  rw [hup] at h
  exact h.mpr ⟨by norm_num [c2cfg], by norm_num [c2cfg]⟩

/-! ## Ledger lemmas for the backtest trade manager -/

lemma length_filter_imp {α : Type} (l : List α) (p q : α → Bool)
    (h : ∀ a, q a = true → p a = true) :
    (l.filter q).length ≤ (l.filter p).length := by
  induction l with
  | nil => simp
  | cons a rest ih =>
    by_cases hq : q a = true
    · simp only [List.filter_cons, hq, h a hq, if_true, List.length_cons]
      omega
    · simp only [Bool.not_eq_true] at hq
      cases hp : p a with
      | true => simp only [List.filter_cons, hq, hp]; simp; omega
      | false => simp only [List.filter_cons, hq, hp]; simpa using ih

lemma place_order_noop_of_any (tm : MockTradeManager) (s side : String) (v : ℚ)
    (c : String) (m : Int) (bar : Option Bar)
    (h : tm.open_positions.any (fun p => p.magic = m) = true) :
    tm.place_order s side v c m bar = tm := by
  unfold MockTradeManager.place_order
  simp [h]

lemma filter_append_single_le {α : Type} (l : List α) (x : α) (p : α → Bool)
    (h0 : l.filter p = [] ∨ p x = false) (h1 : (l.filter p).length ≤ 1) :
    ((l ++ [x]).filter p).length ≤ 1 := by
  rw [List.filter_append]
  rcases h0 with h0 | h0
  · rw [h0]
    simpa using List.length_filter_le p [x]
  · simpa [List.filter_cons, h0] using h1

lemma applyLedgerOp_magic_count (tm : MockTradeManager) (op : LedgerOp)
    (h : ∀ m : Int, (tm.open_positions.filter (fun p => p.magic = m)).length ≤ 1) :
    ∀ m : Int, ((applyLedgerOp tm op).open_positions.filter (fun p => p.magic = m)).length ≤ 1 := by
  intro m
  cases op with
  | place s side v c mm bar =>
    show ((tm.place_order s side v c mm bar).open_positions.filter _).length ≤ 1
    unfold MockTradeManager.place_order
    by_cases hany : tm.open_positions.any (fun p => p.magic = mm) = true
    · simpa [hany] using h m
    · have hall : ∀ p ∈ tm.open_positions, ¬ p.magic = mm := by simpa using hany
      simp only [Bool.not_eq_true] at hany
      cases bar with
      | none => simpa [hany] using h m
      | some b =>
        simp only [hany, Bool.false_eq_true, if_false]
        apply filter_append_single_le
        · by_cases hm : mm = m
          · left
            subst hm
            rw [List.filter_eq_nil_iff]
            intro p hp
            simpa using hall p hp
          · right
            simp [hm]
        · exact h m
  | close price s =>
    show ((tm.check_for_close price s).open_positions.filter _).length ≤ 1
    unfold MockTradeManager.check_for_close
    refine le_trans (List.Sublist.length_le ?_) (h m)
    exact List.Sublist.filter _ (List.filter_sublist _)

lemma foldl_ledger_magic_count (ops : List LedgerOp) :
    ∀ tm : MockTradeManager,
      (∀ m : Int, (tm.open_positions.filter (fun p => p.magic = m)).length ≤ 1) →
      ∀ m : Int, ((ops.foldl applyLedgerOp tm).open_positions.filter
        (fun p => p.magic = m)).length ≤ 1 := by
  induction ops with
  | nil => intro tm h m; simpa using h m
  | cons op rest ih =>
    intro tm h m
    exact ih (applyLedgerOp tm op) (applyLedgerOp_magic_count tm op h) m

lemma runLedgerOps_magic_count (tp sl : ℚ) (ops : List LedgerOp) (m : Int) :
    ((runLedgerOps tp sl ops).open_positions.filter (fun p => p.magic = m)).length ≤ 1 := by
  unfold runLedgerOps
  exact foldl_ledger_magic_count ops (MockTradeManager.mk0 tp sl)
    (by intro m; simp [MockTradeManager.mk0]) m

/-! ## Claim theorems: backtest trade manager -/

/-- C4: from an empty ledger, any sequence of `place_order` /
`check_for_close` calls leaves at most one open position per
(magic, symbol) pair, and `place_order` is a no-op whenever an open
position with the same magic and symbol already exists. -/
theorem one_position_per_strategy_and_symbol (tp sl : ℚ) (ops : List LedgerOp)
    (symbol : String) (magic : Int) :
    ((runLedgerOps tp sl ops).open_positions.filter
        (fun p => p.magic = magic ∧ p.symbol = symbol)).length ≤ 1 ∧
    (∀ (tm : MockTradeManager) (s side : String) (v : ℚ) (c : String) (bar : Option Bar),
      (∃ p ∈ tm.open_positions, p.magic = magic ∧ p.symbol = s) →
      tm.place_order s side v c magic bar = tm) := by
  constructor
  · refine le_trans (length_filter_imp _ _ _ ?_) (runLedgerOps_magic_count tp sl ops magic)
    intro p hp
    simp only [decide_eq_true_eq] at hp ⊢
    exact hp.1
  · intro tm s side v c bar ⟨p, hp, hmag, _⟩
    exact place_order_noop_of_any tm s side v c magic bar
      (List.any_eq_true.mpr ⟨p, hp, by simp [hmag]⟩)

/-- A (magic 7, BTCUSD) open position used to exercise the guard. -/
def guardPos : Position :=
  { symbol := "BTCUSD", type := 1, volume := 1, comment := "x",
    magic := 7, entry_price := 100 }

/-- A one-position ledger used to exercise the duplicate-entry guard. -/
def guardTm : MockTradeManager :=
  { tp_price_diff := 1, sl_price_diff := -1, open_positions := [guardPos],
    closed_trades_count := 0 }

/-- C4 witness: two entry attempts with the same magic leave at most one
matching open position, and an attempt against a ledger already holding a
(magic 7, BTCUSD) position is a no-op. -/
theorem one_position_per_strategy_and_symbol_witness :
    ((runLedgerOps 1 (-1)
        [LedgerOp.place "BTCUSD" "buy" 1 "c" 7 (some ⟨1, 1, 1, 1, 1⟩),
         LedgerOp.place "BTCUSD" "sell" 1 "c" 7 (some ⟨1, 1, 1, 1, 1⟩)]).open_positions.filter
        (fun p => p.magic = 7 ∧ p.symbol = "BTCUSD")).length ≤ 1 ∧
    guardTm.place_order "BTCUSD" "sell" 1 "y" 7 (some ⟨1, 1, 1, 1, 1⟩) = guardTm := by
  have h := one_position_per_strategy_and_symbol 1 (-1)
    [LedgerOp.place "BTCUSD" "buy" 1 "c" 7 (some ⟨1, 1, 1, 1, 1⟩),
     LedgerOp.place "BTCUSD" "sell" 1 "c" 7 (some ⟨1, 1, 1, 1, 1⟩)] "BTCUSD" 7
  refine ⟨h.1, h.2 guardTm "BTCUSD" "sell" 1 "y" (some ⟨1, 1, 1, 1, 1⟩) ?_⟩
  exact ⟨guardPos, by simp [guardTm], by simp [guardPos]⟩

/-- C9: the duplicate-entry guard of `place_order` keys on the magic
number alone — any open position with the same magic on *any* symbol makes
`place_order` a no-op — so at most one position per magic is open globally
across a whole backtest call sequence. -/
theorem place_order_guard_magic_only (tp sl : ℚ) (ops : List LedgerOp) (magic : Int) :
    ((runLedgerOps tp sl ops).open_positions.filter (fun p => p.magic = magic)).length ≤ 1 ∧
    (∀ (tm : MockTradeManager) (s side : String) (v : ℚ) (c : String) (bar : Option Bar),
      (∃ p ∈ tm.open_positions, p.magic = magic) →
      tm.place_order s side v c magic bar = tm) := by
  refine ⟨runLedgerOps_magic_count tp sl ops magic, ?_⟩
  intro tm s side v c bar ⟨p, hp, hmag⟩
  exact place_order_noop_of_any tm s side v c magic bar
    (List.any_eq_true.mpr ⟨p, hp, by simp [hmag]⟩)

/-- C9 witness: the ledger holds a magic-7 position on BTCUSD, yet an
entry attempt for the *different* symbol ETHUSD with magic 7 is already a
no-op, and a cross-symbol call sequence leaves at most one magic-7
position. -/
theorem place_order_guard_magic_only_witness :
    ((runLedgerOps 1 (-1)
        [LedgerOp.place "BTCUSD" "buy" 1 "c" 7 (some ⟨1, 1, 1, 1, 1⟩),
         LedgerOp.place "ETHUSD" "buy" 1 "c" 7 (some ⟨2, 2, 2, 2, 2⟩)]).open_positions.filter
        (fun p => p.magic = 7)).length ≤ 1 ∧
    guardTm.place_order "ETHUSD" "buy" 1 "y" 7 (some ⟨2, 2, 2, 2, 2⟩) = guardTm := by
  have h := place_order_guard_magic_only 1 (-1)
    [LedgerOp.place "BTCUSD" "buy" 1 "c" 7 (some ⟨1, 1, 1, 1, 1⟩),
     LedgerOp.place "ETHUSD" "buy" 1 "c" 7 (some ⟨2, 2, 2, 2, 2⟩)] 7
  refine ⟨h.1, h.2 guardTm "ETHUSD" "buy" 1 "y" (some ⟨2, 2, 2, 2, 2⟩) ?_⟩
  exact ⟨guardPos, by simp [guardTm], by simp [guardPos]⟩

/-! ## Claim theorems: VWAP availability (C6) -/

lemma cumListAux_length (df : List Bar) :
    ∀ ctpv cvol : ℚ, (cumListAux ctpv cvol df).length = df.length := by
  induction df with
  | nil => intro _ _; rfl
  | cons b rest ih => intro ctpv cvol; simp [cumListAux, ih]

lemma cumList_length (df : List Bar) : (cumList df).length = df.length :=
  cumListAux_length df 0 0

/-- C6 counterexample: a one-bar frame with zero tick volume has zero
summed volume, yet the live `SymbolData.calculate_vwap` does not return
the unavailable value `None`: it returns a series whose single entry is
the non-numeric result of the zero-volume division (NaN). -/
theorem live_vwap_zero_volume_counterexample :
    totalVolume [⟨1, 1, 1, 1, 0⟩] = 0 ∧
    SymbolData.calculate_vwap [⟨1, 1, 1, 1, 0⟩] = some [none] := by
  norm_num [totalVolume, SymbolData.calculate_vwap, cumList, cumListAux, typicalPrice]

/-- C6 amended: the backtester's `MockSymbolData.calculate_vwap` returns
`None` exactly when the window is empty or its summed volume is zero, and
otherwise a VWAP series of the window's length; the live
`SymbolData.calculate_vwap` returns `None` exactly when the window is
empty — a zero cumulative volume is *not* reported as unavailable but
yields a non-numeric (NaN) series entry, the division being reached.  No
exception is raised in either variant. -/
theorem calculate_vwap_availability (df : List Bar) :
    (MockSymbolData.calculate_vwap df = none ↔ df = [] ∨ totalVolume df = 0) ∧
    (∀ arr, MockSymbolData.calculate_vwap df = some arr → arr.length = df.length) ∧
    (SymbolData.calculate_vwap df = none ↔ df = []) ∧
    (∀ arr, SymbolData.calculate_vwap df = some arr → arr.length = df.length) := by
  refine ⟨?_, ?_, ?_, ?_⟩
  · simp only [MockSymbolData.calculate_vwap, List.length_eq_zero]
    split_ifs with h
    · simpa using h
    · simpa using h
  · intro arr harr
    simp only [MockSymbolData.calculate_vwap, List.length_eq_zero] at harr
    split_ifs at harr with h
    simp only [Option.some.injEq] at harr
    rw [← harr]
    simp [cumList_length]
  · simp only [SymbolData.calculate_vwap, List.length_eq_zero]
    split_ifs with h
    · simpa using h
    · simpa using h
  · intro arr harr
    simp only [SymbolData.calculate_vwap, List.length_eq_zero] at harr
    split_ifs at harr with h
    simp only [Option.some.injEq] at harr
    rw [← harr]
    simp [cumList_length]

/-- C6 witness: the backtest variant reports an empty window unavailable;
the live variant on a one-bar window with volume 3 is available and
returns a one-entry series. -/
theorem calculate_vwap_availability_witness :
    MockSymbolData.calculate_vwap [] = none ∧
    SymbolData.calculate_vwap [⟨1, 2, 1, 2, 3⟩] ≠ none ∧
    (∀ arr, SymbolData.calculate_vwap [⟨1, 2, 1, 2, 3⟩] = some arr → arr.length = 1) := by
  refine ⟨(calculate_vwap_availability []).1.mpr (Or.inl rfl), ?_, ?_⟩
  · intro h
    have := (calculate_vwap_availability [⟨1, 2, 1, 2, 3⟩]).2.2.1.mp h
    simp at this
  · intro arr h
    simpa using (calculate_vwap_availability [⟨1, 2, 1, 2, 3⟩]).2.2.2 arr h

/-! ## Claim theorems: support/resistance (C7) -/

lemma foldl_min_low_le_init (l : List Bar) :
    ∀ a : ℚ, l.foldl (fun m x => min m x.low) a ≤ a := by
  induction l with
  | nil => intro a; simp
  | cons b rest ih =>
    intro a
    simpa using le_trans (ih (min a b.low)) (min_le_left _ _)

lemma foldl_min_low_le_mem (l : List Bar) :
    ∀ a : ℚ, ∀ b ∈ l, l.foldl (fun m x => min m x.low) a ≤ b.low := by
  induction l with
  | nil => simp
  | cons c rest ih =>
    intro a b hb
    rcases List.mem_cons.mp hb with h | h
    · subst h
      simpa using le_trans (foldl_min_low_le_init rest _) (min_le_right _ _)
    · simpa using ih (min a c.low) b h

lemma foldl_min_low_mem (l : List Bar) :
    ∀ a : ℚ, l.foldl (fun m x => min m x.low) a = a ∨
      l.foldl (fun m x => min m x.low) a ∈ l.map Bar.low := by
  induction l with
  | nil => intro a; exact Or.inl rfl
  | cons c rest ih =>
    intro a
    rcases ih (min a c.low) with h | h
    · rcases le_total a c.low with hc | hc
      · left; simpa [min_eq_left hc] using h
      · right
        rw [min_eq_right hc] at h
        simp only [List.foldl_cons, min_eq_right hc, h, List.map_cons]
        exact List.mem_cons_self _ _
    · right
      simp only [List.foldl_cons, List.map_cons]
      exact List.mem_cons_of_mem _ h

lemma minLow_spec (l : List Bar) (h : l ≠ []) :
    minLow l ∈ l.map Bar.low ∧ ∀ b ∈ l, minLow l ≤ b.low := by
  cases l with
  | nil => exact absurd rfl h
  | cons c rest =>
    constructor
    · show rest.foldl (fun m x => min m x.low) c.low ∈ _
      rcases foldl_min_low_mem rest c.low with h1 | h1
      · rw [h1]; simp
      · simp only [List.map_cons]
        exact List.mem_cons_of_mem _ h1
    · intro b hb
      rcases List.mem_cons.mp hb with h1 | h1
      · subst h1
        exact foldl_min_low_le_init rest b.low
      · exact foldl_min_low_le_mem rest c.low b h1

lemma foldl_max_high_ge_init (l : List Bar) :
    ∀ a : ℚ, a ≤ l.foldl (fun m x => max m x.high) a := by
  induction l with
  | nil => intro a; simp
  | cons b rest ih =>
    intro a
    simpa using le_trans (le_max_left _ b.high) (ih (max a b.high))

lemma foldl_max_high_ge_mem (l : List Bar) :
    ∀ a : ℚ, ∀ b ∈ l, b.high ≤ l.foldl (fun m x => max m x.high) a := by
  induction l with
  | nil => simp
  | cons c rest ih =>
    intro a b hb
    rcases List.mem_cons.mp hb with h | h
    · subst h
      simpa using le_trans (le_max_right _ _) (foldl_max_high_ge_init rest (max a b.high))
    · simpa using ih (max a c.high) b h

lemma foldl_max_high_mem (l : List Bar) :
    ∀ a : ℚ, l.foldl (fun m x => max m x.high) a = a ∨
      l.foldl (fun m x => max m x.high) a ∈ l.map Bar.high := by
  induction l with
  | nil => intro a; exact Or.inl rfl
  | cons c rest ih =>
    intro a
    rcases ih (max a c.high) with h | h
    · rcases le_total c.high a with hc | hc
      · left; simpa [max_eq_left hc] using h
      · right
        rw [max_eq_right hc] at h
        simp only [List.foldl_cons, max_eq_right hc, h, List.map_cons]
        exact List.mem_cons_self _ _
    · right
      simp only [List.foldl_cons, List.map_cons]
      exact List.mem_cons_of_mem _ h

lemma maxHigh_spec (l : List Bar) (h : l ≠ []) :
    maxHigh l ∈ l.map Bar.high ∧ ∀ b ∈ l, b.high ≤ maxHigh l := by
  cases l with
  | nil => exact absurd rfl h
  | cons c rest =>
    constructor
    · show rest.foldl (fun m x => max m x.high) c.high ∈ _
      rcases foldl_max_high_mem rest c.high with h1 | h1
      · rw [h1]; simp
      · simp only [List.map_cons]
        exact List.mem_cons_of_mem _ h1
    · intro b hb
      rcases List.mem_cons.mp hb with h1 | h1
      · subst h1
        exact foldl_max_high_ge_init rest b.high
      · exact foldl_max_high_ge_mem rest c.high b h1

lemma tailN_ne_nil (n : ℕ) (df : List Bar) (hn : 0 < n) (hdf : df ≠ []) :
    tailN n df ≠ [] := by
  unfold tailN
  intro h
  have hlen := congrArg List.length h
  simp only [List.length_drop, List.length_nil] at hlen
  have hne : df.length ≠ 0 := fun h0 => hdf (List.length_eq_zero.mp h0)
  omega

lemma mock_sr_short (df : List Bar) (hne : df ≠ []) (hlt : df.length < 50) :
    MockSymbolData.calculate_support_resistance df = (minLow df, maxHigh df) := by
  simp [MockSymbolData.calculate_support_resistance, hlt, List.isEmpty_iff, hne]

lemma mock_sr_long (df : List Bar) (hge : 50 ≤ df.length) :
    MockSymbolData.calculate_support_resistance df = (minLow (tailN 50 df), maxHigh (tailN 50 df)) := by
  simp [MockSymbolData.calculate_support_resistance, Nat.not_lt.mpr hge]

lemma live_sr_long (df : List Bar) (hge : 5 ≤ df.length) :
    SymbolData.calculate_support_resistance df = (minLow (tailN 20 df), maxHigh (tailN 20 df)) := by
  simp [SymbolData.calculate_support_resistance, Nat.not_lt.mpr hge]

/-- C7 counterexample: on a one-bar window (shorter than every lookback)
the claim demands support `min(low) = 5` and resistance `max(high) = 7`
over the whole window, but the live
`SymbolData.calculate_support_resistance` returns `{0, 0}` for any window
of fewer than 5 bars. -/
theorem live_sr_short_window_counterexample :
    SymbolData.calculate_support_resistance [⟨6, 7, 5, 6, 1⟩] = (0, 0) ∧
    minLow [⟨6, 7, 5, 6, 1⟩] = 5 ∧ maxHigh [⟨6, 7, 5, 6, 1⟩] = 7 ∧
    ((0 : ℚ), (0 : ℚ)) ≠ ((5 : ℚ), (7 : ℚ)) := by
  refine ⟨by norm_num [SymbolData.calculate_support_resistance], ?_, ?_,
    by norm_num [Prod.ext_iff]⟩
  · norm_num [minLow]
  · norm_num [maxHigh]

/-- C7 amended: the backtester's variant behaves as claimed with lookback
50 (empty window gives `{0, 0}`, a shorter window uses the whole window,
otherwise the last 50 bars); the live variant returns `{0, 0}` for every
window of fewer than 5 bars — not only the empty one — and for 5 or more
bars takes min low / max high over the last 20 bars.  The min/max is
characterised by membership plus the bound over the consulted window. -/
theorem support_resistance_rule (df : List Bar) :
    (df = [] → MockSymbolData.calculate_support_resistance df = (0, 0)) ∧
    (df ≠ [] → df.length < 50 →
      (MockSymbolData.calculate_support_resistance df).1 ∈ df.map Bar.low ∧
      (∀ b ∈ df, (MockSymbolData.calculate_support_resistance df).1 ≤ b.low) ∧
      (MockSymbolData.calculate_support_resistance df).2 ∈ df.map Bar.high ∧
      (∀ b ∈ df, b.high ≤ (MockSymbolData.calculate_support_resistance df).2)) ∧
    (50 ≤ df.length →
      (MockSymbolData.calculate_support_resistance df).1 ∈ (tailN 50 df).map Bar.low ∧
      (∀ b ∈ tailN 50 df, (MockSymbolData.calculate_support_resistance df).1 ≤ b.low) ∧
      (MockSymbolData.calculate_support_resistance df).2 ∈ (tailN 50 df).map Bar.high ∧
      (∀ b ∈ tailN 50 df, b.high ≤ (MockSymbolData.calculate_support_resistance df).2)) ∧
    (df.length < 5 → SymbolData.calculate_support_resistance df = (0, 0)) ∧
    (5 ≤ df.length →
      (SymbolData.calculate_support_resistance df).1 ∈ (tailN 20 df).map Bar.low ∧
      (∀ b ∈ tailN 20 df, (SymbolData.calculate_support_resistance df).1 ≤ b.low) ∧
      (SymbolData.calculate_support_resistance df).2 ∈ (tailN 20 df).map Bar.high ∧
      (∀ b ∈ tailN 20 df, b.high ≤ (SymbolData.calculate_support_resistance df).2)) := by
  refine ⟨?_, ?_, ?_, ?_, ?_⟩
  · intro h
    subst h
    simp [MockSymbolData.calculate_support_resistance]
  · intro hne hlt
    rw [mock_sr_short df hne hlt]
    obtain ⟨hm1, hm2⟩ := minLow_spec df hne
    obtain ⟨hx1, hx2⟩ := maxHigh_spec df hne
    exact ⟨hm1, hm2, hx1, hx2⟩
  · intro hge
    have hne : df ≠ [] := by
      intro h; rw [h] at hge; simp at hge
    have htne := tailN_ne_nil 50 df (by norm_num) hne
    rw [mock_sr_long df hge]
    obtain ⟨hm1, hm2⟩ := minLow_spec _ htne
    obtain ⟨hx1, hx2⟩ := maxHigh_spec _ htne
    exact ⟨hm1, hm2, hx1, hx2⟩
  · intro hlt
    simp [SymbolData.calculate_support_resistance, hlt]
  · intro hge
    have hne : df ≠ [] := by
      intro h; rw [h] at hge; simp at hge
    have htne := tailN_ne_nil 20 df (by norm_num) hne
    rw [live_sr_long df hge]
    obtain ⟨hm1, hm2⟩ := minLow_spec _ htne
    obtain ⟨hx1, hx2⟩ := maxHigh_spec _ htne
    exact ⟨hm1, hm2, hx1, hx2⟩

/-- The five-bar window used to exercise the support/resistance rules. -/
def srDf : List Bar :=
  [⟨6, 7, 5, 6, 1⟩, ⟨6, 8, 4, 6, 1⟩, ⟨6, 9, 3, 6, 1⟩, ⟨6, 10, 2, 6, 1⟩, ⟨6, 11, 1, 6, 1⟩]

/-- C7 witness: the support/resistance rules evaluated on an empty window,
a two-bar window and a five-bar window. -/
theorem support_resistance_rule_witness :
    MockSymbolData.calculate_support_resistance [] = (0, 0) ∧
    (MockSymbolData.calculate_support_resistance srDf).1 ∈ srDf.map Bar.low ∧
    SymbolData.calculate_support_resistance [⟨6, 7, 5, 6, 1⟩, ⟨6, 8, 4, 6, 1⟩] = (0, 0) ∧
    (∀ b ∈ tailN 20 srDf, b.high ≤ (SymbolData.calculate_support_resistance srDf).2) := by
  refine ⟨(support_resistance_rule []).1 rfl, ?_, ?_, ?_⟩
  · exact ((support_resistance_rule srDf).2.1 (by simp [srDf]) (by simp [srDf])).1
  · exact (support_resistance_rule [⟨6, 7, 5, 6, 1⟩, ⟨6, 8, 4, 6, 1⟩]).2.2.2.1 (by simp)
  · exact ((support_resistance_rule srDf).2.2.2.2 (by simp [srDf])).2.2.2

/-! ## Claim theorems: backtest causality (C1) -/

lemma get_ohlc_bars_take (d : List Bar) (i count : ℕ) :
    MockSymbolData.get_ohlc_bars d ((i : Int) - 1) count = (d.take i).drop (i - count) := by
  cases i with
  | zero =>
    have h0 : ((0 : ℕ) : Int) - 1 < 0 := by norm_num
    simp [MockSymbolData.get_ohlc_bars, h0]
  | succ j =>
    unfold MockSymbolData.get_ohlc_bars
    have hnn : ¬ (((j + 1 : ℕ) : Int) - 1 < 0) := by push_cast; omega
    rw [if_neg hnn]
    have htn : ((((j + 1 : ℕ) : Int)) - 1).toNat = j := by omega
    simp [htn]

/-- C1: the market state computed at step `i` of the backtest replay is a
function of bars `0 .. i-1` only — the window fetched at cursor `i - 1`
ends strictly before bar `i`, so two data sets that agree on the first `i`
bars (and may differ from bar `i` on) yield the identical fetched window
and the identical `MarketState` at step `i`. -/
theorem backtest_causality (d1 d2 : List Bar) (i count : ℕ) (symbol : String)
    (h : d1.take i = d2.take i) :
    MockSymbolData.get_ohlc_bars d1 ((i : Int) - 1) count =
      MockSymbolData.get_ohlc_bars d2 ((i : Int) - 1) count ∧
    marketStateAtStep d1 i count symbol = marketStateAtStep d2 i count symbol := by
  have hw : MockSymbolData.get_ohlc_bars d1 ((i : Int) - 1) count =
      MockSymbolData.get_ohlc_bars d2 ((i : Int) - 1) count := by
    rw [get_ohlc_bars_take, get_ohlc_bars_take, h]
  refine ⟨hw, ?_⟩
  unfold marketStateAtStep
  rw [hw]

/-- C1 witness: two two-bar histories that agree on bar 0 and differ on
bar 1 produce the same window and the same market state at step 1. -/
theorem backtest_causality_witness :
    MockSymbolData.get_ohlc_bars [⟨1, 1, 1, 1, 1⟩, ⟨2, 2, 2, 2, 2⟩] (((1 : ℕ) : Int) - 1) 300 =
      MockSymbolData.get_ohlc_bars [⟨1, 1, 1, 1, 1⟩, ⟨9, 9, 9, 9, 9⟩] (((1 : ℕ) : Int) - 1) 300 ∧
    marketStateAtStep [⟨1, 1, 1, 1, 1⟩, ⟨2, 2, 2, 2, 2⟩] 1 300 "BTCUSD" =
      marketStateAtStep [⟨1, 1, 1, 1, 1⟩, ⟨9, 9, 9, 9, 9⟩] 1 300 "BTCUSD" :=
  backtest_causality [⟨1, 1, 1, 1, 1⟩, ⟨2, 2, 2, 2, 2⟩] [⟨1, 1, 1, 1, 1⟩, ⟨9, 9, 9, 9, 9⟩]
    1 300 "BTCUSD" rfl

/-! ## Claim theorems: VWAP slope trend rule (C3) -/

lemma calculate_vwap_df_ne_nil (df : List Bar) (arr : List (Option ℚ))
    (hv : MockSymbolData.calculate_vwap df = some arr) : df ≠ [] := by
  intro h
  subst h
  simp [MockSymbolData.calculate_vwap] at hv

lemma analyze_market_trend (symbol : String) (df : List Bar) (arr : List (Option ℚ))
    (hv : MockSymbolData.calculate_vwap df = some arr) (hne : arr ≠ []) :
    (analyze_market symbol df).trend =
      if 10 < arr.length then
        (if oposb (osub (arr.getD (arr.length - 1) none) (arr.getD (arr.length - 10) none))
          then "UPTREND"
         else if onegb (osub (arr.getD (arr.length - 1) none) (arr.getD (arr.length - 10) none))
          then "DOWNTREND"
         else "CONSOLIDATION")
      else "CONSOLIDATION" := by
  have hdf : df ≠ [] := calculate_vwap_df_ne_nil df arr hv
  have hie : df.isEmpty = false := by simpa [List.isEmpty_iff] using hdf
  have hae : arr.isEmpty = false := by simpa [List.isEmpty_iff] using hne
  simp only [analyze_market, hie, Bool.false_eq_true, if_false, hv, hae]

/-- The 11-bar window of the trend counterexample: its VWAP series rises
from the first point (100) to the last (45552/451 ≈ 101.005) but falls
from the second point (102) to the last. -/
def c3df : List Bar :=
  [⟨100, 100, 100, 100, 1⟩, ⟨104, 104, 104, 104, 1⟩,
   ⟨101, 101, 101, 101, 100⟩, ⟨101, 101, 101, 101, 100⟩, ⟨101, 101, 101, 101, 100⟩,
   ⟨101, 101, 101, 101, 100⟩, ⟨101, 101, 101, 101, 100⟩, ⟨101, 101, 101, 101, 100⟩,
   ⟨101, 101, 101, 101, 100⟩, ⟨101, 101, 101, 101, 100⟩, ⟨101, 101, 101, 101, 100⟩]

/-- The VWAP series of `c3df`. -/
def c3arr : List (Option ℚ) :=
  [some 100, some 102, some (5152/51), some (10202/101), some (15252/151),
   some (20302/201), some (25352/251), some (30402/301), some (35452/351),
   some (40502/401), some (45552/451)]

/-- C3 counterexample: an 11-point VWAP series whose delta against the
point 10 positions before the last (`vwap[0] = 100`, delta `452/451 > 0`)
is positive — the claim then demands UPTREND — yet the analyzer reports
DOWNTREND, because the code's `vwap_array[-10]` is the point 9 positions
before the last (`vwap[1] = 102`, delta `-450/451 < 0`). -/
theorem trend_offset_counterexample :
    MockSymbolData.calculate_vwap c3df = some c3arr ∧ c3arr.length = 11 ∧
    c3arr.getD 10 none = some (45552/451) ∧ c3arr.getD 0 none = some 100 ∧
    (0 : ℚ) < 45552/451 - 100 ∧
    (analyze_market "BTCUSD" c3df).trend = "DOWNTREND" := by
  have hv : MockSymbolData.calculate_vwap c3df = some c3arr := by
    norm_num [MockSymbolData.calculate_vwap, totalVolume, cumList, cumListAux, typicalPrice,
      c3df, c3arr]
  refine ⟨hv, by norm_num [c3arr], by norm_num [c3arr], by norm_num [c3arr], by norm_num, ?_⟩
  rw [analyze_market_trend "BTCUSD" c3df c3arr hv (by simp [c3arr])]
  norm_num [c3arr, osub, oposb, onegb]

/-- C3 amended: the analyzer's trend compares `vwap_array[-1]` against
`vwap_array[-10]`, the point exactly 9 positions before the last (index
`n - 10` of an `n`-point series): with at least 11 numeric-endpoint VWAP
points the trend is UPTREND when that delta is positive, DOWNTREND when
negative and CONSOLIDATION otherwise, and with 10 or fewer points it is
CONSOLIDATION.  (The claim's comparison point, 10 positions before the
last, is off by one.) -/
theorem trend_slope_rule (symbol : String) (df : List Bar) (arr : List (Option ℚ))
    (hv : MockSymbolData.calculate_vwap df = some arr) (hne : arr ≠ []) :
    (arr.length ≤ 10 → (analyze_market symbol df).trend = "CONSOLIDATION") ∧
    (∀ a b : ℚ, 10 < arr.length →
      arr.getD (arr.length - 1) none = some a →
      arr.getD (arr.length - 10) none = some b →
      (analyze_market symbol df).trend =
        if 0 < a - b then "UPTREND" else if a - b < 0 then "DOWNTREND"
        else "CONSOLIDATION") := by
  constructor
  · intro hle
    rw [analyze_market_trend symbol df arr hv hne, if_neg (Nat.not_lt.mpr hle)]
  · intro a b hlen ha hb
    rw [analyze_market_trend symbol df arr hv hne, if_pos hlen, ha, hb]
    simp only [osub, oposb, onegb, decide_eq_true_eq]

/-- An 11-bar window with strictly rising prices and unit volumes; its
VWAP series is `(i + 2) / 2` at index `i`. -/
def trendDf : List Bar :=
  [⟨1, 1, 1, 1, 1⟩, ⟨2, 2, 2, 2, 1⟩, ⟨3, 3, 3, 3, 1⟩, ⟨4, 4, 4, 4, 1⟩, ⟨5, 5, 5, 5, 1⟩,
   ⟨6, 6, 6, 6, 1⟩, ⟨7, 7, 7, 7, 1⟩, ⟨8, 8, 8, 8, 1⟩, ⟨9, 9, 9, 9, 1⟩, ⟨10, 10, 10, 10, 1⟩,
   ⟨11, 11, 11, 11, 1⟩]

/-- The VWAP series of `trendDf`. -/
def trendArr : List (Option ℚ) :=
  [some 1, some (3/2), some 2, some (5/2), some 3, some (7/2), some 4, some (9/2),
   some 5, some (11/2), some 6]

/-- C3 witness: on a strictly rising 11-bar window the code's delta
`vwap[10] - vwap[1] = 9/2` is positive and the trend is UPTREND. -/
theorem trend_slope_rule_witness :
    (analyze_market "BTCUSD" trendDf).trend = "UPTREND" := by
  have hv : MockSymbolData.calculate_vwap trendDf = some trendArr := by
    norm_num [MockSymbolData.calculate_vwap, totalVolume, cumList, cumListAux, typicalPrice,
      trendDf, trendArr]
  have h := (trend_slope_rule "BTCUSD" trendDf trendArr hv (by simp [trendArr])).2 6 (3/2)
    (by norm_num [trendArr]) (by norm_num [trendArr]) (by norm_num [trendArr])
  rw [h]
  norm_num
